import Mathlib

/-!
# Verification of the `onlyoffice-convert-server` client load balancer

Shallow embedding of the client-side load balancer of the repository
(`client/src/load.rs`, error classification from `client/src/lib.rs`).

Modelling conventions:

* `Instant` values are natural numbers; `Duration`s are natural numbers in the
  same abstract time unit.  `Instant::now()` values observed during one scan of
  `try_acquire_client` are supplied by a stream `clock : Nat → Nat`; the scan
  of the slot at index `i` may read `clock (2*i)` and `clock (2*i+1)` (the two
  potential `Instant::now()` calls inside one loop iteration).  Monotonicity of
  the real clock is an explicit hypothesis where a theorem needs it.
* The backend client (`OfficeConvertClient`, an external collaborator: one
  `convert` call plus one `is_busy` probe per backend) is abstracted into
  oracles: `probe : Nat → ProbeResult` gives the outcome of the `is_busy`
  probe of the slot at a given index during one scan (each slot is probed at
  most once per scan), and `backend : Nat → Bytes → Except RequestError Bytes`
  gives the outcome of the k-th backend `convert` call made by the
  orchestrator for a fixed input file.
* The tokio counting semaphore `client_permit` is modelled as a counting
  permit-set state together with a step relation (`PoolStep`): acquiring a
  permit requires one to be available, releasing requires one to be held.
  `tokio::sync::Semaphore::acquire` suspends while no permit is available.
* File bytes are byte lists.
-/

def Bytes : Type := List Nat

/-! ## Error classification (`client/src/lib.rs`) -/

/-- Stand-in for the external `reqwest::Error` payload type. -/
structure ReqwestError where
  message : String
deriving DecidableEq

/-- `ErrorResponse` from `client/src/lib.rs`: structured error payload
returned by a convert server. -/
structure ErrorResponse where
  code : Option Int
  reason : String
  backtrace : Option String
deriving DecidableEq

/-- `RequestError` from `client/src/lib.rs`. -/
inductive RequestError where
  /-- Failed to request the server. -/
  | RequestFailed (e : ReqwestError)
  /-- Response from the server was invalid. -/
  | InvalidResponse (e : ReqwestError)
  /-- Reached timeout when trying to connect. -/
  | ServerConnectTimeout
  /-- Error message from the convert server reply. -/
  | ErrorResponse (e : ErrorResponse)
deriving DecidableEq

/-- `RequestError::is_retry` from `client/src/lib.rs`: whether a retry
attempt should be made.  The source is a `matches!` over the first three
constructors. -/
def RequestError.is_retry : RequestError → Bool
  | RequestError.RequestFailed _ => true
  | RequestError.InvalidResponse _ => true
  | RequestError.ServerConnectTimeout => true
  | RequestError.ErrorResponse _ => false

/-! ## Configuration (`LoadBalancerConfig`) -/

/-- `LoadBalancerConfig` from `client/src/load.rs`.  Durations are abstract
time units (the source uses seconds here). -/
structure LoadBalancerConfig where
  /-- Time in-between external busy checks. -/
  retry_busy_check_after : Nat
  /-- Time to wait before repeated attempts. -/
  retry_single_external : Nat
  /-- Timeout to wait on the notifier for. -/
  notify_timeout : Nat
  /-- Number of attempts to retry a file for if the request fails due to
  connection loss. -/
  retry_attempts : Nat
deriving DecidableEq

/-- `Default for LoadBalancerConfig` from `client/src/load.rs`. -/
def LoadBalancerConfig.default : LoadBalancerConfig :=
  { retry_busy_check_after := 5
    retry_single_external := 1
    notify_timeout := 120
    retry_attempts := 3 }

/-! ## Slots and the pool (`ClientSlot`, `OfficeConvertLoadBalancer`) -/

/-- `ClientSlot` from `client/src/load.rs`.  The owned backend client handle
is abstracted away (its behaviour is supplied by the probe/backend oracles);
what remains is the mutable busy-check timestamp. -/
structure ClientSlot where
  /-- If the server was busy the last time it was checked this is the
  timestamp when the next busy check is allowed to be performed. -/
  next_busy_check : Option Nat
deriving DecidableEq

/-- State of the counting permit set (`tokio::sync::Semaphore`):
`available` permits may still be acquired, `held` permits are currently
held by in-flight acquisitions. -/
structure SemaphoreState where
  available : Nat
  held : Nat
deriving DecidableEq

/-- The pool (`OfficeConvertLoadBalancer` from `client/src/load.rs`):
an ordered slot sequence fixed at construction, the capacity permit set,
and the timing configuration. -/
structure OfficeConvertLoadBalancer where
  clients : List ClientSlot
  client_permit : SemaphoreState
  config : LoadBalancerConfig
deriving DecidableEq

namespace OfficeConvertLoadBalancer

/-- `OfficeConvertLoadBalancer::new_with_timing` from `client/src/load.rs`:
wrap every provided client in a slot with `next_busy_check = None` and create
the semaphore with `total_clients = clients.len()` permits. -/
def new_with_timing {α : Type} (clients : List α) (timing : LoadBalancerConfig) :
    OfficeConvertLoadBalancer :=
  { clients := clients.map fun _ => { next_busy_check := none }
    client_permit := { available := clients.length, held := 0 }
    config := timing }

/-- `OfficeConvertLoadBalancer::new` from `client/src/load.rs`. -/
def new {α : Type} (clients : List α) : OfficeConvertLoadBalancer :=
  new_with_timing clients LoadBalancerConfig.default

end OfficeConvertLoadBalancer

/-! ## Semaphore step relation

`try_acquire_client` begins by acquiring one permit from `client_permit`
(`self.client_permit.acquire().await`); the permit is dropped (released back)
when the caller finishes with the slot.  No other operation touches the
semaphore: no permits are ever added beyond the initial count. -/

/-- One transition of the capacity permit set: a task acquires a permit
(possible only while one is available — otherwise `acquire().await`
suspends), or a task holding a permit releases it. -/
inductive PoolStep : SemaphoreState → SemaphoreState → Prop where
  | acquire (s : SemaphoreState) (h : 0 < s.available) :
      PoolStep s { available := s.available - 1, held := s.held + 1 }
  | release (s : SemaphoreState) (h : 0 < s.held) :
      PoolStep s { available := s.available + 1, held := s.held - 1 }

/-- Reachability of a semaphore state from a starting state. -/
def PoolReachable (s t : SemaphoreState) : Prop :=
  Relation.ReflTransGen PoolStep s t

/-! ## The orchestrator retry loop (`convert`) -/

namespace OfficeConvertLoadBalancer

/-- The retry loop of `OfficeConvertLoadBalancer::convert` from
`client/src/load.rs` (lines 115–145).  `backend k file` is the outcome of the
k-th backend `convert(file.clone())` call (each loop iteration re-runs the
full slot-acquisition protocol and then performs one backend call; the
acquisition is modelled separately).  `attempt` is the retry counter, which
at each loop head equals the number of backend calls already made.  Returns
the total number of backend calls performed and the final outcome. -/
def convertLoop (retry_attempts : Nat) (backend : Nat → Bytes → Except RequestError Bytes)
    (file : Bytes) (attempt : Nat) : Nat × Except RequestError Bytes :=
  match backend attempt file with
  | Except.ok value => (attempt + 1, Except.ok value)
  | Except.error error =>
    if error.is_retry then
      -- attempt += 1; if attempt <= retry_attempts { continue; } break error
      if attempt + 1 ≤ retry_attempts then
        convertLoop retry_attempts backend file (attempt + 1)
      else
        (attempt + 1, Except.error error)
    else
      (attempt + 1, Except.error error)
termination_by retry_attempts - attempt

/-- `OfficeConvertLoadBalancer::convert`: run the retry loop starting from
`attempt = 0`. -/
def convert (lb : OfficeConvertLoadBalancer)
    (backend : Nat → Bytes → Except RequestError Bytes) (file : Bytes) :
    Nat × Except RequestError Bytes :=
  convertLoop lb.config.retry_attempts backend file 0

end OfficeConvertLoadBalancer

/-! ## The acquisition engine (`try_acquire_client`)

One loop iteration of the slot scan (lines 187–249 of `client/src/load.rs`)
is `processSlot`; the full scan is `scanSlots`.  `lockAvailable` is whether
`slot.try_lock()` succeeds (it fails when another task currently holds the
slot), `pr` is the outcome of the `is_busy` probe of this slot, and
`now1`/`now2` are the values of the first and second `Instant::now()` call
this iteration would make (the first happens at the busy-window check, the
second at the busy-timestamp computation; an iteration that makes fewer
calls simply leaves the remaining values unread). -/

/-- Outcome of the `is_busy()` probe of one backend: not busy, busy, or a
probe error. -/
inductive ProbeResult where
  | notBusy
  | busy
  | probeError
deriving DecidableEq

/-- Which control-flow path one scan iteration took. -/
inductive SlotOutcome where
  /-- `slot.try_lock()` failed: server already in use, skip it. -/
  | skippedLocked
  /-- The slot's busy-check timestamp has not expired: skip without probing. -/
  | skippedBusyWindow
  /-- The probe reported not busy: return this slot (with the held permit). -/
  | acquiredHere
  /-- The probe reported busy (or a probe error): mark the slot busy and
  continue with the next slot. -/
  | markedBusy
deriving DecidableEq

/-- Result of one scan iteration: the control-flow path taken, the slot's
state after the iteration, and the updated `next_wake_time` accumulator. -/
structure IterResult where
  outcome : SlotOutcome
  slot : ClientSlot
  nextWake : Option Nat
deriving DecidableEq

/-- The `next_wake_time` update on seeing a slot timestamp `c`
(`if next_wake_time.is_none_or(|wake_time| next_busy_check < wake_time)`):
replace the accumulator when it is empty or when `c` is strictly smaller. -/
def mergeWake (nextWake : Option Nat) (c : Nat) : Option Nat :=
  match nextWake with
  | none => some c
  | some w => if c < w then some c else some w

/-- The probe phase of one scan iteration (lines 216–246): on `Ok(false)`
return the slot; on `Ok(true)` or `Err(_)` record
`next_busy_check = now + retry_busy_check_after` on the slot and set the
wake accumulator only if it is still empty.  When this phase runs the
slot's `next_busy_check` is `None` (it either was `None` or was just
cleared). -/
def probePhase (cfg : LoadBalancerConfig) (pr : ProbeResult) (now : Nat)
    (nextWake : Option Nat) : IterResult :=
  match pr with
  | ProbeResult.notBusy =>
    { outcome := SlotOutcome.acquiredHere
      slot := { next_busy_check := none }
      nextWake := nextWake }
  | _ =>
    let next_busy_check := now + cfg.retry_busy_check_after
    { outcome := SlotOutcome.markedBusy
      slot := { next_busy_check := some next_busy_check }
      nextWake := if nextWake.isNone then some next_busy_check else nextWake }

/-- One iteration of the scan loop of `try_acquire_client`
(lines 187–249 of `client/src/load.rs`). -/
def processSlot (cfg : LoadBalancerConfig) (lockAvailable : Bool) (pr : ProbeResult)
    (now1 now2 : Nat) (slot : ClientSlot) (nextWake : Option Nat) : IterResult :=
  if lockAvailable then
    match slot.next_busy_check with
    | some next_busy_check =>
      let nextWake1 := mergeWake nextWake next_busy_check
      -- This client is not ready to be checked yet
      if now1 < next_busy_check then
        { outcome := SlotOutcome.skippedBusyWindow, slot := slot, nextWake := nextWake1 }
      else
        -- Clear next busy check timestamp (We are about to re-check it)
        probePhase cfg pr now2 nextWake1
    | none => probePhase cfg pr now1 nextWake
  else
    -- Server is already in use, skip it
    { outcome := SlotOutcome.skippedLocked, slot := slot, nextWake := nextWake }

/-- Result of scanning the slot sequence: either a slot was acquired (its
index, its state, and the whole updated slot list), or the scan finished
with the final `next_wake_time` accumulator and the updated slot list. -/
inductive ScanResult where
  | acquired (index : Nat) (slot : ClientSlot) (slots : List ClientSlot)
  | finished (nextWake : Option Nat) (slots : List ClientSlot)
deriving DecidableEq

/-- The scan loop of `try_acquire_client`: iterate the slot sequence in
order, stopping at the first acquired slot.  `index` is the index of the
head of `slots` in the full sequence; the iteration for index `i` reads
`clock (2*i)` and `clock (2*i+1)`. -/
def scanSlots (cfg : LoadBalancerConfig) (lockFree : Nat → Bool)
    (probe : Nat → ProbeResult) (clock : Nat → Nat) :
    Nat → Option Nat → List ClientSlot → ScanResult
  | _, nextWake, [] => ScanResult.finished nextWake []
  | index, nextWake, slot :: rest =>
    let r := processSlot cfg (lockFree index) (probe index)
      (clock (2 * index)) (clock (2 * index + 1)) slot nextWake
    match r.outcome with
    | SlotOutcome.acquiredHere => ScanResult.acquired index r.slot (r.slot :: rest)
    | _ =>
      match scanSlots cfg lockFree probe clock (index + 1) r.nextWake rest with
      | ScanResult.acquired i s slots => ScanResult.acquired i s (r.slot :: slots)
      | ScanResult.finished w slots => ScanResult.finished w (r.slot :: slots)

/-- `TryAcquireResult` from `client/src/load.rs` (the permit carried by
`Acquired` is tracked by the semaphore model `PoolStep`). -/
inductive TryAcquireResult where
  | Acquired (index : Nat) (client : ClientSlot)
  /-- All clients are currently active. -/
  | BusyInternally
  /-- All available clients are currently blocked externally;
  `next_wake_time` is the instant clients should wake up at to check again. -/
  | BusyExternally (next_wake_time : Nat)
deriving DecidableEq

namespace OfficeConvertLoadBalancer

/-- The scan part of `OfficeConvertLoadBalancer::try_acquire_client`
(lines 185–256): run the scan from index 0 with an empty wake accumulator;
if no slot was acquired, return `BusyExternally` when a wake time was
recorded and `BusyInternally` otherwise.  (The permit acquisition at lines
179–183 is the `PoolStep.acquire` transition of the semaphore model.)
Returns the result together with the updated slot list. -/
def try_acquire_client (cfg : LoadBalancerConfig) (lockFree : Nat → Bool)
    (probe : Nat → ProbeResult) (clock : Nat → Nat) (slots : List ClientSlot) :
    TryAcquireResult × List ClientSlot :=
  match scanSlots cfg lockFree probe clock 0 none slots with
  | ScanResult.acquired i s slots2 => (TryAcquireResult.Acquired i s, slots2)
  | ScanResult.finished (some w) slots2 => (TryAcquireResult.BusyExternally w, slots2)
  | ScanResult.finished none slots2 => (TryAcquireResult.BusyInternally, slots2)

end OfficeConvertLoadBalancer

/-- What the body of `acquire_client`'s loop (lines 148–173) does with one
`try_acquire_client` result. -/
inductive AcquireAction where
  /-- Return the (locked slot, permit) pair to the orchestrator. -/
  | finishedWith (index : Nat) (client : ClientSlot)
  /-- Loop again immediately. -/
  | retryNow
  /-- `sleep_until(next_wake_time)`, then loop again. -/
  | sleepUntil (next_wake_time : Nat)
deriving DecidableEq

/-- One iteration of `OfficeConvertLoadBalancer::acquire_client`
(lines 148–173): `Acquired` returns, `BusyInternally` retries immediately,
and `BusyExternally` retries immediately when `now > next_wake_time`
(time drift) and otherwise sleeps until `next_wake_time`. -/
def acquireStep (r : TryAcquireResult) (now : Nat) : AcquireAction :=
  match r with
  | TryAcquireResult.Acquired i s => AcquireAction.finishedWith i s
  | TryAcquireResult.BusyInternally => AcquireAction.retryNow
  | TryAcquireResult.BusyExternally next_wake_time =>
    if now > next_wake_time then AcquireAction.retryNow
    else AcquireAction.sleepUntil next_wake_time

/-- The wake-time candidates recorded during one scan, in scan order: for a
slot whose lock is free, its existing `next_busy_check` timestamp is a
candidate the moment it is seen, and the fresh
`now + retry_busy_check_after` timestamp written after a busy (or erroneous)
probe is a candidate as well.  Locked slots contribute nothing. -/
def scanCandidates (cfg : LoadBalancerConfig) (lockFree : Nat → Bool)
    (probe : Nat → ProbeResult) (clock : Nat → Nat) :
    Nat → List ClientSlot → List Nat
  | _, [] => []
  | index, slot :: rest =>
    let here : List Nat :=
      if lockFree index then
        match slot.next_busy_check with
        | some c =>
          if clock (2 * index) < c then [c]
          else
            match probe index with
            | ProbeResult.notBusy => [c]
            | _ => [c, clock (2 * index + 1) + cfg.retry_busy_check_after]
        | none =>
          match probe index with
          | ProbeResult.notBusy => []
          | _ => [clock (2 * index) + cfg.retry_busy_check_after]
      else []
    here ++ scanCandidates cfg lockFree probe clock (index + 1) rest

/-- Replace every probe error by a plain busy outcome. -/
def foldProbeErrors (probe : Nat → ProbeResult) : Nat → ProbeResult :=
  fun i =>
    match probe i with
    | ProbeResult.probeError => ProbeResult.busy
    | pr => pr

/-- All timestamps stored in a slot list are bounded by `b`. -/
def TimestampsLE (slots : List ClientSlot) (b : Nat) : Prop :=
  ∀ s ∈ slots, ∀ c, s.next_busy_check = some c → c ≤ b

/-- The clock stream is monotone: later `Instant::now()` calls never return
an earlier instant. -/
def MonotoneClock (clock : Nat → Nat) : Prop :=
  ∀ i j, i ≤ j → clock i ≤ clock j

/-! ## Theorems -/

/-- C8: the failure classification used by the retry loop holds exactly:
`is_retry` is `true` on `RequestFailed`, `InvalidResponse` and
`ServerConnectTimeout`, and `false` on `ErrorResponse`. -/
theorem is_retry_classification :
    (∀ e : ReqwestError, (RequestError.RequestFailed e).is_retry = true) ∧
    (∀ e : ReqwestError, (RequestError.InvalidResponse e).is_retry = true) ∧
    RequestError.ServerConnectTimeout.is_retry = true ∧
    (∀ r : ErrorResponse, (RequestError.ErrorResponse r).is_retry = false) := by
  refine ⟨fun _ => rfl, fun _ => rfl, rfl, fun _ => rfl⟩

/-- Auxiliary unfolding lemma for `convertLoop`. -/
theorem convertLoop_eq (ra : Nat) (backend : Nat → Bytes → Except RequestError Bytes)
    (file : Bytes) (attempt : Nat) :
    OfficeConvertLoadBalancer.convertLoop ra backend file attempt =
      match backend attempt file with
      | Except.ok value => (attempt + 1, Except.ok value)
      | Except.error error =>
        if error.is_retry then
          if attempt + 1 ≤ ra then
            OfficeConvertLoadBalancer.convertLoop ra backend file (attempt + 1)
          else
            (attempt + 1, Except.error error)
        else
          (attempt + 1, Except.error error) := by
  rw [OfficeConvertLoadBalancer.convertLoop]

/-- If every backend call from index `attempt` through `ra` fails with a
retryable error, the loop runs through all of them and ends with the outcome
of call `ra`. -/
theorem convertLoop_all_retry (ra : Nat) (backend : Nat → Bytes → Except RequestError Bytes)
    (file : Bytes) :
    ∀ n attempt, ra - attempt = n → attempt ≤ ra →
      (∀ k, attempt ≤ k → k ≤ ra → ∃ e, backend k file = Except.error e ∧ e.is_retry = true) →
      OfficeConvertLoadBalancer.convertLoop ra backend file attempt =
        (ra + 1, backend ra file) := by
  intro n
  induction n with
  | zero =>
    intro attempt hsub hle hall
    have heq : attempt = ra := by omega
    subst heq
    obtain ⟨e, hbe, hre⟩ := hall attempt le_rfl le_rfl
    rw [convertLoop_eq, hbe]
    simp [hre, show ¬(attempt + 1 ≤ attempt) by omega]
  | succ n ih =>
    intro attempt hsub hle hall
    have hlt : attempt < ra := by omega
    obtain ⟨e, hbe, hre⟩ := hall attempt le_rfl hle
    rw [convertLoop_eq, hbe]
    simp only [hre, if_true, show ((attempt + 1 ≤ ra) = True) by simp; omega]
    exact ih (attempt + 1) (by omega) (by omega)
      (fun k hk1 hk2 => hall k (by omega) hk2)

/-- C2: when every backend call fails with a retryable error, `convert`
performs exactly `retry_attempts + 1` backend calls (one initial attempt
plus `retry_attempts` retries, each retry re-running the slot-acquisition
protocol before its backend call) and its outcome is the outcome of the
last backend call — the last retryable error. -/
theorem convert_all_retryable (lb : OfficeConvertLoadBalancer)
    (backend : Nat → Bytes → Except RequestError Bytes) (file : Bytes)
    (h : ∀ k, k ≤ lb.config.retry_attempts →
      ∃ e, backend k file = Except.error e ∧ e.is_retry = true) :
    lb.convert backend file =
      (lb.config.retry_attempts + 1, backend lb.config.retry_attempts file) := by
  exact convertLoop_all_retry lb.config.retry_attempts backend file
    (lb.config.retry_attempts - 0) 0 rfl (Nat.zero_le _)
    (fun k hk1 hk2 => h k hk2)

/-- Witness for C2: a single-client pool with the default configuration
(`retry_attempts = 3`) and a backend that always times out makes exactly
4 backend calls and returns the timeout error. -/
theorem convert_all_retryable_witness :
    (OfficeConvertLoadBalancer.new [()]).convert
        (fun _ _ => Except.error RequestError.ServerConnectTimeout) [] =
      (4, Except.error RequestError.ServerConnectTimeout) := by
  exact convert_all_retryable (OfficeConvertLoadBalancer.new [()])
    (fun _ _ => Except.error RequestError.ServerConnectTimeout) []
    (fun k _ => ⟨RequestError.ServerConnectTimeout, rfl, rfl⟩)

/-- C3: when the first backend call fails with a non-retryable error,
`convert` returns that error with exactly one backend call and no retry. -/
theorem convert_non_retryable_first (lb : OfficeConvertLoadBalancer)
    (backend : Nat → Bytes → Except RequestError Bytes) (file : Bytes)
    (e : RequestError) (h1 : backend 0 file = Except.error e)
    (h2 : e.is_retry = false) :
    lb.convert backend file = (1, Except.error e) := by
  unfold OfficeConvertLoadBalancer.convert
  rw [convertLoop_eq, h1]
  simp [h2]

/-- Witness for C3: a single-client pool whose backend returns a structured
rejection payload on the first call: `convert` returns that error with
exactly one backend call. -/
theorem convert_non_retryable_first_witness :
    (OfficeConvertLoadBalancer.new [()]).convert
        (fun _ _ => Except.error (RequestError.ErrorResponse
          { code := some 89, reason := "invalid file", backtrace := none })) [] =
      (1, Except.error (RequestError.ErrorResponse
          { code := some 89, reason := "invalid file", backtrace := none })) := by
  exact convert_non_retryable_first (OfficeConvertLoadBalancer.new [()])
    (fun _ _ => Except.error (RequestError.ErrorResponse
      { code := some 89, reason := "invalid file", backtrace := none })) []
    (RequestError.ErrorResponse { code := some 89, reason := "invalid file", backtrace := none })
    rfl rfl

/-- Every permit transition preserves the total permit count. -/
theorem poolStep_sum {s t : SemaphoreState} (h : PoolStep s t) :
    t.available + t.held = s.available + s.held := by
  cases h with
  | acquire ha => simp only; omega
  | release hh => simp only; omega

/-- The total permit count is invariant along every reachable execution. -/
theorem poolReachable_sum {s t : SemaphoreState} (h : PoolReachable s t) :
    t.available + t.held = s.available + s.held := by
  induction h with
  | refl => rfl
  | tail _ hstep ih => rw [poolStep_sum hstep, ih]

/-- C1: a pool built from `N ≥ 1` clients creates its capacity permit set
with exactly `N` permits and none held; in every state reachable by
acquiring (one permit per slot acquisition of `try_acquire_client`) and
releasing permits, the number of held permits never exceeds the number of
slots `N`. -/
theorem new_with_timing_permit_invariant {α : Type} (clients : List α)
    (timing : LoadBalancerConfig) (hN : 1 ≤ clients.length) :
    (OfficeConvertLoadBalancer.new_with_timing clients timing).client_permit =
        { available := clients.length, held := 0 } ∧
    (OfficeConvertLoadBalancer.new_with_timing clients timing).clients.length =
        clients.length ∧
    ∀ s, PoolReachable
        (OfficeConvertLoadBalancer.new_with_timing clients timing).client_permit s →
      s.held ≤ clients.length := by
  refine ⟨rfl, by simp [OfficeConvertLoadBalancer.new_with_timing], fun s hs => ?_⟩
  have hsum := poolReachable_sum hs
  simp only [OfficeConvertLoadBalancer.new_with_timing] at hsum
  omega

/-- Witness for C1: a pool of one client has one available permit, no held
permit, one slot, and every reachable state holds at most one permit
(checked at the initial state). -/
theorem new_with_timing_permit_invariant_witness :
    (OfficeConvertLoadBalancer.new_with_timing [()] LoadBalancerConfig.default).client_permit =
        { available := 1, held := 0 } ∧
    (OfficeConvertLoadBalancer.new_with_timing [()] LoadBalancerConfig.default).clients.length = 1 ∧
    (OfficeConvertLoadBalancer.new_with_timing [()] LoadBalancerConfig.default).client_permit.held ≤ 1 := by
  have h := new_with_timing_permit_invariant [()] LoadBalancerConfig.default (by decide)
  exact ⟨h.1, h.2.1, h.2.2 _ Relation.ReflTransGen.refl⟩

/-- C10: a pool built from an empty client collection creates the semaphore
with zero permits; every reachable semaphore state still has zero available
and zero held permits and admits no transition at all, so the permit
acquisition at the top of `try_acquire_client` (and hence every call to
`convert`) suspends forever and never returns. -/
theorem empty_pool_acquire_suspends_forever {α : Type} (timing : LoadBalancerConfig) :
    (OfficeConvertLoadBalancer.new_with_timing ([] : List α) timing).client_permit =
        { available := 0, held := 0 } ∧
    ∀ s, PoolReachable
        (OfficeConvertLoadBalancer.new_with_timing ([] : List α) timing).client_permit s →
      s = { available := 0, held := 0 } ∧ ∀ t, ¬ PoolStep s t := by
  refine ⟨rfl, fun s hs => ?_⟩
  have hzero : s = { available := 0, held := 0 } := by
    have hsum := poolReachable_sum hs
    have h0 : (OfficeConvertLoadBalancer.new_with_timing ([] : List α)
        timing).client_permit = { available := 0, held := 0 } := rfl
    rw [h0] at hsum
    obtain ⟨a, b⟩ := s
    simp only [SemaphoreState.mk.injEq]
    simp only at hsum
    omega
  subst hzero
  refine ⟨rfl, fun t hstep => ?_⟩
  cases hstep with
  | acquire ha => exact absurd ha (by simp)
  | release hh => exact absurd hh (by simp)

/-- Witness for C10: for the empty pool, the initial semaphore state has no
permits and the acquire transition is not enabled there. -/
theorem empty_pool_acquire_suspends_forever_witness :
    (OfficeConvertLoadBalancer.new_with_timing ([] : List Unit)
        LoadBalancerConfig.default).client_permit =
      { available := 0, held := 0 } ∧
    ¬ PoolStep { available := 0, held := 0 } { available := 0, held := 1 } := by
  have h := empty_pool_acquire_suspends_forever (α := Unit) LoadBalancerConfig.default
  exact ⟨h.1, (h.2 _ Relation.ReflTransGen.refl).2 _⟩

/-- Path lemma: a contested slot is skipped untouched. -/
theorem processSlot_locked (cfg : LoadBalancerConfig) (pr : ProbeResult)
    (now1 now2 : Nat) (slot : ClientSlot) (nextWake : Option Nat) :
    processSlot cfg false pr now1 now2 slot nextWake =
      { outcome := SlotOutcome.skippedLocked, slot := slot, nextWake := nextWake } := by
  simp [processSlot]

/-- Path lemma: an unexpired busy-check timestamp makes the iteration skip
the slot without probing, after min-merging the timestamp into the wake
accumulator. -/
theorem processSlot_window (cfg : LoadBalancerConfig) (pr : ProbeResult)
    (now1 now2 c : Nat) (nextWake : Option Nat) (h : now1 < c) :
    processSlot cfg true pr now1 now2 { next_busy_check := some c } nextWake =
      { outcome := SlotOutcome.skippedBusyWindow, slot := { next_busy_check := some c }
        nextWake := mergeWake nextWake c } := by
  simp [processSlot, h]

/-- The wake accumulator is never emptied by a merge. -/
theorem mergeWake_isSome (nextWake : Option Nat) (c : Nat) :
    (mergeWake nextWake c).isNone = false := by
  cases nextWake with
  | none => rfl
  | some w =>
    simp only [mergeWake]
    split <;> rfl

/-- Path lemma: an expired timestamp is cleared and the slot probed; a busy
or erroneous probe rewrites the timestamp to `now2 + retry_busy_check_after`
(`now2` being the `Instant::now()` value read after the probe). -/
theorem processSlot_expired_busy (cfg : LoadBalancerConfig) (pr : ProbeResult)
    (now1 now2 c : Nat) (nextWake : Option Nat) (h : ¬ now1 < c)
    (hpr : pr ≠ ProbeResult.notBusy) :
    processSlot cfg true pr now1 now2 { next_busy_check := some c } nextWake =
      { outcome := SlotOutcome.markedBusy
        slot := { next_busy_check := some (now2 + cfg.retry_busy_check_after) }
        nextWake := mergeWake nextWake c } := by
  cases pr with
  | notBusy => exact absurd rfl hpr
  | busy => simp [processSlot, probePhase, h, mergeWake_isSome]
  | probeError => simp [processSlot, probePhase, h, mergeWake_isSome]

/-- Path lemma: an expired timestamp followed by a not-busy probe acquires
the slot with a cleared timestamp. -/
theorem processSlot_expired_notBusy (cfg : LoadBalancerConfig)
    (now1 now2 c : Nat) (nextWake : Option Nat) (h : ¬ now1 < c) :
    processSlot cfg true ProbeResult.notBusy now1 now2 { next_busy_check := some c } nextWake =
      { outcome := SlotOutcome.acquiredHere, slot := { next_busy_check := none }
        nextWake := mergeWake nextWake c } := by
  simp [processSlot, probePhase, h]

/-- Path lemma: a slot with no timestamp whose probe is busy or erroneous
gets `now1 + retry_busy_check_after` recorded, and the fresh timestamp
becomes the wake candidate only when none was recorded yet. -/
theorem processSlot_none_busy (cfg : LoadBalancerConfig) (pr : ProbeResult)
    (now1 now2 : Nat) (nextWake : Option Nat) (hpr : pr ≠ ProbeResult.notBusy) :
    processSlot cfg true pr now1 now2 { next_busy_check := none } nextWake =
      { outcome := SlotOutcome.markedBusy
        slot := { next_busy_check := some (now1 + cfg.retry_busy_check_after) }
        nextWake := if nextWake.isNone then some (now1 + cfg.retry_busy_check_after)
          else nextWake } := by
  cases pr with
  | notBusy => exact absurd rfl hpr
  | busy => simp [processSlot, probePhase]
  | probeError => simp [processSlot, probePhase]

/-- Path lemma: a slot with no timestamp whose probe is not busy is
acquired, leaving the wake accumulator unchanged. -/
theorem processSlot_none_notBusy (cfg : LoadBalancerConfig)
    (now1 now2 : Nat) (nextWake : Option Nat) :
    processSlot cfg true ProbeResult.notBusy now1 now2 { next_busy_check := none } nextWake =
      { outcome := SlotOutcome.acquiredHere, slot := { next_busy_check := none }
        nextWake := nextWake } := by
  simp [processSlot, probePhase]

/-- C4: for a slot with recorded timestamp `c`: while `now1 < c` the slot is
skipped without probing and keeps its timestamp; once expired and found busy
(or erroneous), the timestamp is set to `now2 + retry_busy_check_after`
(`now2` the clock reading at the marking); a slot without a timestamp found
busy is stamped `now1 + retry_busy_check_after`.  Hence a slot marked busy
at time `t` carries `t + retry_busy_check_after` and every later scan
arriving before that instant skips it without probing. -/
theorem busy_check_window (cfg : LoadBalancerConfig) (pr : ProbeResult)
    (now1 now2 c : Nat) (nextWake : Option Nat) :
    (now1 < c →
      processSlot cfg true pr now1 now2 { next_busy_check := some c } nextWake =
        { outcome := SlotOutcome.skippedBusyWindow, slot := { next_busy_check := some c }
          nextWake := mergeWake nextWake c }) ∧
    (¬ now1 < c → pr ≠ ProbeResult.notBusy →
      processSlot cfg true pr now1 now2 { next_busy_check := some c } nextWake =
        { outcome := SlotOutcome.markedBusy
          slot := { next_busy_check := some (now2 + cfg.retry_busy_check_after) }
          nextWake := mergeWake nextWake c }) ∧
    (pr ≠ ProbeResult.notBusy →
      processSlot cfg true pr now1 now2 { next_busy_check := none } nextWake =
        { outcome := SlotOutcome.markedBusy
          slot := { next_busy_check := some (now1 + cfg.retry_busy_check_after) }
          nextWake := if nextWake.isNone then some (now1 + cfg.retry_busy_check_after)
            else nextWake }) := by
  exact ⟨processSlot_window cfg pr now1 now2 c nextWake,
    fun h hpr => processSlot_expired_busy cfg pr now1 now2 c nextWake h hpr,
    fun hpr => processSlot_none_busy cfg pr now1 now2 nextWake hpr⟩

/-- Witness for C4: with `retry_busy_check_after = 5`, a slot stamped `20`
is skipped at time `10`; at time `25` a busy probe restamps it `26 + 5`;
an unstamped slot found busy at time `10` is stamped `15`. -/
theorem busy_check_window_witness :
    (processSlot LoadBalancerConfig.default true ProbeResult.busy 10 11
        { next_busy_check := some 20 } none =
      { outcome := SlotOutcome.skippedBusyWindow, slot := { next_busy_check := some 20 }
        nextWake := mergeWake none 20 }) ∧
    (processSlot LoadBalancerConfig.default true ProbeResult.busy 25 26
        { next_busy_check := some 20 } none =
      { outcome := SlotOutcome.markedBusy, slot := { next_busy_check := some 31 }
        nextWake := mergeWake none 20 }) ∧
    (processSlot LoadBalancerConfig.default true ProbeResult.busy 10 11
        { next_busy_check := none } none =
      { outcome := SlotOutcome.markedBusy, slot := { next_busy_check := some 15 }
        nextWake := if (none : Option Nat).isNone then some 15 else none }) := by
  refine ⟨(busy_check_window LoadBalancerConfig.default ProbeResult.busy 10 11 20 none).1
      (by decide), ?_, (busy_check_window LoadBalancerConfig.default ProbeResult.busy 10 11 20
      none).2.2 (by decide)⟩
  exact (busy_check_window LoadBalancerConfig.default ProbeResult.busy 25 26 20 none).2.1
    (by decide) (by decide)

/-- A probe error and a busy probe produce identical iteration results. -/
theorem processSlot_probeError_eq_busy (cfg : LoadBalancerConfig) (lockAvailable : Bool)
    (now1 now2 : Nat) (slot : ClientSlot) (nextWake : Option Nat) :
    processSlot cfg lockAvailable ProbeResult.probeError now1 now2 slot nextWake =
      processSlot cfg lockAvailable ProbeResult.busy now1 now2 slot nextWake := by
  obtain ⟨nbc⟩ := slot
  cases lockAvailable with
  | false => rfl
  | true =>
    cases nbc with
    | none => rfl
    | some c =>
      by_cases h : now1 < c
      · rw [processSlot_window cfg ProbeResult.probeError now1 now2 c nextWake h,
          processSlot_window cfg ProbeResult.busy now1 now2 c nextWake h]
      · rw [processSlot_expired_busy cfg ProbeResult.probeError now1 now2 c nextWake h
          (by simp), processSlot_expired_busy cfg ProbeResult.busy now1 now2 c nextWake h
          (by simp)]

/-- A whole scan is unchanged when every probe error is replaced by busy. -/
theorem scanSlots_foldProbeErrors (cfg : LoadBalancerConfig) (lockFree : Nat → Bool)
    (probe : Nat → ProbeResult) (clock : Nat → Nat) (slots : List ClientSlot) :
    ∀ index nextWake,
      scanSlots cfg lockFree (foldProbeErrors probe) clock index nextWake slots =
        scanSlots cfg lockFree probe clock index nextWake slots := by
  induction slots with
  | nil => intro index nextWake; rfl
  | cons slot rest ih =>
    intro index nextWake
    have hps : processSlot cfg (lockFree index) (foldProbeErrors probe index)
        (clock (2 * index)) (clock (2 * index + 1)) slot nextWake =
        processSlot cfg (lockFree index) (probe index)
        (clock (2 * index)) (clock (2 * index + 1)) slot nextWake := by
      cases hpr : probe index with
      | notBusy => rw [show foldProbeErrors probe index = ProbeResult.notBusy by
          simp [foldProbeErrors, hpr]]
      | busy => rw [show foldProbeErrors probe index = ProbeResult.busy by
          simp [foldProbeErrors, hpr]]
      | probeError =>
        rw [show foldProbeErrors probe index = ProbeResult.busy by
          simp [foldProbeErrors, hpr]]
        exact (processSlot_probeError_eq_busy cfg (lockFree index)
          (clock (2 * index)) (clock (2 * index + 1)) slot nextWake).symm
    simp only [scanSlots]
    rw [hps, ih]

/-- C7: a probe error is treated exactly like a busy probe: the iteration
marks the slot with `now + retry_busy_check_after` and moves on, and the
whole acquisition result (and the slot states it leaves behind) is
identical to the one obtained when every probe error is read as busy — so
no probe error is ever surfaced to the caller of `convert`, whose outcomes
are built only from backend `convert` results. -/
theorem probe_error_treated_as_busy (cfg : LoadBalancerConfig) (lockFree : Nat → Bool)
    (probe : Nat → ProbeResult) (clock : Nat → Nat) (slots : List ClientSlot) :
    (∀ lockAvailable now1 now2 slot nextWake,
      processSlot cfg lockAvailable ProbeResult.probeError now1 now2 slot nextWake =
        processSlot cfg lockAvailable ProbeResult.busy now1 now2 slot nextWake) ∧
    (∀ now1 now2 nextWake,
      processSlot cfg true ProbeResult.probeError now1 now2
          { next_busy_check := none } nextWake =
        { outcome := SlotOutcome.markedBusy
          slot := { next_busy_check := some (now1 + cfg.retry_busy_check_after) }
          nextWake := if nextWake.isNone then some (now1 + cfg.retry_busy_check_after)
            else nextWake }) ∧
    OfficeConvertLoadBalancer.try_acquire_client cfg lockFree (foldProbeErrors probe)
        clock slots =
      OfficeConvertLoadBalancer.try_acquire_client cfg lockFree probe clock slots := by
  refine ⟨fun la n1 n2 s w => processSlot_probeError_eq_busy cfg la n1 n2 s w,
    fun n1 n2 w => processSlot_none_busy cfg ProbeResult.probeError n1 n2 w (by simp),
    ?_⟩
  unfold OfficeConvertLoadBalancer.try_acquire_client
  rw [scanSlots_foldProbeErrors cfg lockFree probe clock slots 0 none]

/-- Inversion: an iteration result tagged `acquiredHere` requires a free
lock and a not-busy probe, and returns the slot with a cleared timestamp. -/
theorem processSlot_acquired_inv (cfg : LoadBalancerConfig) (lockAvailable : Bool)
    (pr : ProbeResult) (now1 now2 : Nat) (slot : ClientSlot) (nextWake : Option Nat)
    (h : (processSlot cfg lockAvailable pr now1 now2 slot nextWake).outcome =
      SlotOutcome.acquiredHere) :
    lockAvailable = true ∧ pr = ProbeResult.notBusy ∧
      (processSlot cfg lockAvailable pr now1 now2 slot nextWake).slot =
        { next_busy_check := none } := by
  obtain ⟨nbc⟩ := slot
  cases lockAvailable with
  | false => rw [processSlot_locked] at h ⊢; simp at h
  | true =>
    cases nbc with
    | none =>
      cases pr with
      | notBusy => rw [processSlot_none_notBusy] at h ⊢; exact ⟨rfl, rfl, rfl⟩
      | busy => rw [processSlot_none_busy cfg _ _ _ _ (by simp)] at h; simp at h
      | probeError => rw [processSlot_none_busy cfg _ _ _ _ (by simp)] at h; simp at h
    | some c =>
      by_cases hc : now1 < c
      · rw [processSlot_window cfg _ _ _ _ _ hc] at h; simp at h
      · cases pr with
        | notBusy =>
          rw [processSlot_expired_notBusy cfg _ _ _ _ hc] at h ⊢
          exact ⟨rfl, rfl, rfl⟩
        | busy =>
          rw [processSlot_expired_busy cfg _ _ _ _ _ hc (by simp)] at h; simp at h
        | probeError =>
          rw [processSlot_expired_busy cfg _ _ _ _ _ hc (by simp)] at h; simp at h

/-- Inversion: an iteration that did not acquire its slot had a contested
lock, a busy or erroneous probe, or an unexpired busy-check timestamp. -/
theorem processSlot_not_acquired_inv (cfg : LoadBalancerConfig) (lockAvailable : Bool)
    (pr : ProbeResult) (now1 now2 : Nat) (slot : ClientSlot) (nextWake : Option Nat)
    (h : (processSlot cfg lockAvailable pr now1 now2 slot nextWake).outcome ≠
      SlotOutcome.acquiredHere) :
    lockAvailable = false ∨ pr ≠ ProbeResult.notBusy ∨
      ∃ c, slot.next_busy_check = some c ∧ now1 < c := by
  obtain ⟨nbc⟩ := slot
  cases lockAvailable with
  | false => exact Or.inl rfl
  | true =>
    cases pr with
    | busy => exact Or.inr (Or.inl (by simp))
    | probeError => exact Or.inr (Or.inl (by simp))
    | notBusy =>
      cases nbc with
      | none => rw [processSlot_none_notBusy] at h; simp at h
      | some c =>
        by_cases hc : now1 < c
        · exact Or.inr (Or.inr ⟨c, rfl, hc⟩)
        · rw [processSlot_expired_notBusy cfg _ _ _ _ hc] at h; simp at h

/-- A scan acquires only a slot whose lock was free and whose probe
reported not busy, hands it back with a cleared timestamp, and every
earlier slot was contested, probed busy/erroneously, or sat inside its
busy-check window at the moment it was examined. -/
theorem scanSlots_acquired_core (cfg : LoadBalancerConfig) (lockFree : Nat → Bool)
    (probe : Nat → ProbeResult) (clock : Nat → Nat) (slots : List ClientSlot) :
    ∀ index nextWake idx s slots2,
      scanSlots cfg lockFree probe clock index nextWake slots =
        ScanResult.acquired idx s slots2 →
      lockFree idx = true ∧ probe idx = ProbeResult.notBusy ∧
        s = { next_busy_check := none } ∧ index ≤ idx ∧ idx < index + slots.length ∧
        ∀ j, index ≤ j → j < idx →
          lockFree j = false ∨ probe j ≠ ProbeResult.notBusy ∨
            ∃ sj c, slots[j - index]? = some sj ∧ sj.next_busy_check = some c ∧
              clock (2 * j) < c := by
  induction slots with
  | nil =>
    intro index nextWake idx s slots2 h
    simp [scanSlots] at h
  | cons slot rest ih =>
    intro index nextWake idx s slots2 h
    simp only [scanSlots] at h
    rcases hr : processSlot cfg (lockFree index) (probe index) (clock (2 * index))
      (clock (2 * index + 1)) slot nextWake with ⟨o, s1, w1⟩
    rw [hr] at h
    have hcontinue : ∀ w1' : Option Nat,
        (match scanSlots cfg lockFree probe clock (index + 1) w1' rest with
          | ScanResult.acquired i2 s2 r2 => ScanResult.acquired i2 s2 (s1 :: r2)
          | ScanResult.finished w2 r2 => ScanResult.finished w2 (s1 :: r2)) =
          ScanResult.acquired idx s slots2 →
        (processSlot cfg (lockFree index) (probe index) (clock (2 * index))
          (clock (2 * index + 1)) slot nextWake).outcome ≠ SlotOutcome.acquiredHere →
        lockFree idx = true ∧ probe idx = ProbeResult.notBusy ∧
          s = { next_busy_check := none } ∧ index ≤ idx ∧
          idx < index + (slot :: rest).length ∧
          ∀ j, index ≤ j → j < idx →
            lockFree j = false ∨ probe j ≠ ProbeResult.notBusy ∨
              ∃ sj c, (slot :: rest)[j - index]? = some sj ∧
                sj.next_busy_check = some c ∧ clock (2 * j) < c := by
      intro w1' h hna
      rcases hrec : scanSlots cfg lockFree probe clock (index + 1) w1' rest with
        ⟨i2, s2, r2⟩ | ⟨w2, r2⟩ <;> rw [hrec] at h <;>
        simp only [ScanResult.acquired.injEq, reduceCtorEq] at h
      obtain ⟨h1, h2, h3⟩ := h
      obtain ⟨c1, c2, c3, c4, c5, c6⟩ := ih (index + 1) w1' i2 s2 r2 hrec
      refine ⟨h1 ▸ c1, h1 ▸ c2, h2 ▸ c3, by omega, by simp only [List.length_cons]; omega, ?_⟩
      intro j hj1 hj2
      rcases Nat.eq_or_lt_of_le hj1 with heq | hlt
      · subst heq
        rcases processSlot_not_acquired_inv cfg (lockFree index) (probe index)
          (clock (2 * index)) (clock (2 * index + 1)) slot nextWake hna with
          hx | hx | ⟨c, hc1, hc2⟩
        · exact Or.inl hx
        · exact Or.inr (Or.inl hx)
        · exact Or.inr (Or.inr ⟨slot, c, by simp, hc1, hc2⟩)
      · have hj2' : j < i2 := by omega
        rcases c6 j hlt hj2' with hx | hx | ⟨sj, cj, hcj1, hcj2, hcj3⟩
        · exact Or.inl hx
        · exact Or.inr (Or.inl hx)
        · refine Or.inr (Or.inr ⟨sj, cj, ?_, hcj2, hcj3⟩)
          rw [show j - index = (j - (index + 1)) + 1 by omega]
          simpa using hcj1
    cases o with
    | acquiredHere =>
      simp only [ScanResult.acquired.injEq] at h
      obtain ⟨h1, h2, h3⟩ := h
      obtain ⟨c1, c2, c3⟩ := processSlot_acquired_inv cfg (lockFree index) (probe index)
        (clock (2 * index)) (clock (2 * index + 1)) slot nextWake (by rw [hr])
      rw [hr] at c3
      simp only at c3
      refine ⟨h1 ▸ c1, h1 ▸ c2, by rw [← h2, c3], by omega,
        by simp only [List.length_cons]; omega, ?_⟩
      intro j hj1 hj2
      exact absurd hj2 (by omega)
    | skippedLocked => exact hcontinue w1 (by simpa using h) (by rw [hr]; simp)
    | skippedBusyWindow => exact hcontinue w1 (by simpa using h) (by rw [hr]; simp)
    | markedBusy => exact hcontinue w1 (by simpa using h) (by rw [hr]; simp)

/-- `mergeWake` computes the minimum of the accumulator and the new
candidate: the result is `some x` with `x` at most the candidate, at most
any accumulated value, and equal to one of them. -/
theorem mergeWake_spec (acc : Option Nat) (c : Nat) :
    ∃ x, mergeWake acc c = some x ∧ x ≤ c ∧ (∀ a, acc = some a → x ≤ a) ∧
      (x = c ∨ acc = some x) := by
  cases acc with
  | none => exact ⟨c, rfl, le_rfl, by simp, Or.inl rfl⟩
  | some a =>
    by_cases h : c < a
    · refine ⟨c, by simp [mergeWake, h], le_rfl, ?_, Or.inl rfl⟩
      intro a2 ha2
      injection ha2 with ha3
      omega
    · refine ⟨a, by simp [mergeWake, h], by omega, ?_, Or.inr rfl⟩
      intro a2 ha2
      injection ha2 with ha3
      omega

/-- Merging never produces an empty accumulator. -/
theorem mergeWake_isSome_eq (acc : Option Nat) (c : Nat) :
    (mergeWake acc c).isSome = true := by
  obtain ⟨x, hx, _⟩ := mergeWake_spec acc c
  rw [hx]
  rfl

/-- A merge against an already-smaller accumulator is absorbed. -/
theorem mergeWake_absorb (x c : Nat) (h : x ≤ c) :
    mergeWake (some x) c = some x := by
  simp only [mergeWake]
  rw [if_neg (by omega)]

/-- Folding `mergeWake` over a candidate list computes the minimum: the
result belongs to the list (or is the initial accumulator) and is a lower
bound of the list and of the accumulator. -/
theorem foldl_mergeWake_min : ∀ (l : List Nat) (acc : Option Nat) (w : Nat),
    List.foldl mergeWake acc l = some w →
    (w ∈ l ∨ acc = some w) ∧ (∀ c ∈ l, w ≤ c) ∧ (∀ a, acc = some a → w ≤ a) := by
  intro l
  induction l with
  | nil =>
    intro acc w h
    simp only [List.foldl_nil] at h
    refine ⟨Or.inr h, by simp, ?_⟩
    intro a ha
    rw [h] at ha
    injection ha with h2
    omega
  | cons c l ih =>
    intro acc w h
    simp only [List.foldl_cons] at h
    obtain ⟨x, hx1, hx2, hx3, hx4⟩ := mergeWake_spec acc c
    rw [hx1] at h
    obtain ⟨m1, m2, m3⟩ := ih (some x) w h
    have hwx : w ≤ x := m3 x rfl
    constructor
    · rcases m1 with hm | hm
      · exact Or.inl (List.mem_cons_of_mem c hm)
      · injection hm with hm2
        rcases hx4 with hc | hacc
        · exact Or.inl (by rw [← hm2, hc]; exact List.mem_cons_self c l)
        · exact Or.inr (by rw [hacc, hm2])
    · refine ⟨?_, ?_⟩
      · intro c2 hc2
        rcases List.mem_cons.mp hc2 with rfl | hmem
        · omega
        · exact m2 c2 hmem
      · intro a ha
        have := hx3 a ha
        omega

/-- Only a contested lock produces the `skippedLocked` outcome. -/
theorem processSlot_skippedLocked_inv (cfg : LoadBalancerConfig) (lockAvailable : Bool)
    (pr : ProbeResult) (now1 now2 : Nat) (slot : ClientSlot) (nextWake : Option Nat)
    (h : (processSlot cfg lockAvailable pr now1 now2 slot nextWake).outcome =
      SlotOutcome.skippedLocked) :
    lockAvailable = false := by
  obtain ⟨nbc⟩ := slot
  cases lockAvailable with
  | false => rfl
  | true =>
    exfalso
    cases nbc with
    | none =>
      cases pr with
      | notBusy => rw [processSlot_none_notBusy] at h; simp at h
      | busy => rw [processSlot_none_busy cfg _ _ _ _ (by simp)] at h; simp at h
      | probeError => rw [processSlot_none_busy cfg _ _ _ _ (by simp)] at h; simp at h
    | some c =>
      by_cases hc : now1 < c
      · rw [processSlot_window cfg _ _ _ _ _ hc] at h; simp at h
      · cases pr with
        | notBusy => rw [processSlot_expired_notBusy cfg _ _ _ _ hc] at h; simp at h
        | busy => rw [processSlot_expired_busy cfg _ _ _ _ _ hc (by simp)] at h; simp at h
        | probeError =>
          rw [processSlot_expired_busy cfg _ _ _ _ _ hc (by simp)] at h; simp at h

/-- An iteration that skipped a busy window or marked its slot busy always
leaves a nonempty wake accumulator. -/
theorem processSlot_busy_wake_isSome (cfg : LoadBalancerConfig) (lockAvailable : Bool)
    (pr : ProbeResult) (now1 now2 : Nat) (slot : ClientSlot) (nextWake : Option Nat)
    (h : (processSlot cfg lockAvailable pr now1 now2 slot nextWake).outcome =
        SlotOutcome.skippedBusyWindow ∨
      (processSlot cfg lockAvailable pr now1 now2 slot nextWake).outcome =
        SlotOutcome.markedBusy) :
    (processSlot cfg lockAvailable pr now1 now2 slot nextWake).nextWake.isSome = true := by
  obtain ⟨nbc⟩ := slot
  cases lockAvailable with
  | false => rw [processSlot_locked] at h; simp at h
  | true =>
    cases nbc with
    | none =>
      cases pr with
      | notBusy => rw [processSlot_none_notBusy] at h; simp at h
      | busy =>
        rw [processSlot_none_busy cfg _ _ _ _ (by simp)]
        cases nextWake <;> simp
      | probeError =>
        rw [processSlot_none_busy cfg _ _ _ _ (by simp)]
        cases nextWake <;> simp
    | some c =>
      by_cases hc : now1 < c
      · rw [processSlot_window cfg _ _ _ _ _ hc]
        exact mergeWake_isSome_eq nextWake c
      · cases pr with
        | notBusy => rw [processSlot_expired_notBusy cfg _ _ _ _ hc] at h; simp at h
        | busy =>
          rw [processSlot_expired_busy cfg _ _ _ _ _ hc (by simp)]
          exact mergeWake_isSome_eq nextWake c
        | probeError =>
          rw [processSlot_expired_busy cfg _ _ _ _ _ hc (by simp)]
          exact mergeWake_isSome_eq nextWake c

/-- Any iteration keeps a nonempty wake accumulator nonempty. -/
theorem processSlot_wake_isSome (cfg : LoadBalancerConfig) (lockAvailable : Bool)
    (pr : ProbeResult) (now1 now2 : Nat) (slot : ClientSlot) (nextWake : Option Nat)
    (h : nextWake.isSome = true) :
    (processSlot cfg lockAvailable pr now1 now2 slot nextWake).nextWake.isSome = true := by
  obtain ⟨nbc⟩ := slot
  cases lockAvailable with
  | false => rw [processSlot_locked]; exact h
  | true =>
    cases nbc with
    | none =>
      cases pr with
      | notBusy => rw [processSlot_none_notBusy]; exact h
      | busy =>
        rw [processSlot_none_busy cfg _ _ _ _ (by simp)]
        cases nextWake <;> simp
      | probeError =>
        rw [processSlot_none_busy cfg _ _ _ _ (by simp)]
        cases nextWake <;> simp
    | some c =>
      by_cases hc : now1 < c
      · rw [processSlot_window cfg _ _ _ _ _ hc]
        exact mergeWake_isSome_eq nextWake c
      · cases pr with
        | notBusy =>
          rw [processSlot_expired_notBusy cfg _ _ _ _ hc]
          exact mergeWake_isSome_eq nextWake c
        | busy =>
          rw [processSlot_expired_busy cfg _ _ _ _ _ hc (by simp)]
          exact mergeWake_isSome_eq nextWake c
        | probeError =>
          rw [processSlot_expired_busy cfg _ _ _ _ _ hc (by simp)]
          exact mergeWake_isSome_eq nextWake c

/-- A scan started with a nonempty wake accumulator finishes with one. -/
theorem scanSlots_finished_isSome (cfg : LoadBalancerConfig) (lockFree : Nat → Bool)
    (probe : Nat → ProbeResult) (clock : Nat → Nat) :
    ∀ (slots : List ClientSlot) (index : Nat) (acc wake : Option Nat)
      (slots2 : List ClientSlot),
      acc.isSome = true →
      scanSlots cfg lockFree probe clock index acc slots =
        ScanResult.finished wake slots2 →
      wake.isSome = true := by
  intro slots
  induction slots with
  | nil =>
    intro index acc wake slots2 hacc h
    simp only [scanSlots, ScanResult.finished.injEq] at h
    rw [← h.1]
    exact hacc
  | cons slot rest ih =>
    intro index acc wake slots2 hacc h
    simp only [scanSlots] at h
    rcases hr : processSlot cfg (lockFree index) (probe index) (clock (2 * index))
      (clock (2 * index + 1)) slot acc with ⟨o, s1, w1⟩
    rw [hr] at h
    have hw1 : w1.isSome = true := by
      have := processSlot_wake_isSome cfg (lockFree index) (probe index)
        (clock (2 * index)) (clock (2 * index + 1)) slot acc hacc
      rw [hr] at this
      exact this
    cases o with
    | acquiredHere => simp at h
    | skippedLocked =>
      simp only at h
      rcases hrec : scanSlots cfg lockFree probe clock (index + 1) w1 rest with
        ⟨i2, s2, r2⟩ | ⟨w2, r2⟩ <;> rw [hrec] at h <;>
        simp only [ScanResult.finished.injEq, reduceCtorEq] at h
      rw [← h.1]
      exact ih (index + 1) w1 w2 r2 hw1 hrec
    | skippedBusyWindow =>
      simp only at h
      rcases hrec : scanSlots cfg lockFree probe clock (index + 1) w1 rest with
        ⟨i2, s2, r2⟩ | ⟨w2, r2⟩ <;> rw [hrec] at h <;>
        simp only [ScanResult.finished.injEq, reduceCtorEq] at h
      rw [← h.1]
      exact ih (index + 1) w1 w2 r2 hw1 hrec
    | markedBusy =>
      simp only at h
      rcases hrec : scanSlots cfg lockFree probe clock (index + 1) w1 rest with
        ⟨i2, s2, r2⟩ | ⟨w2, r2⟩ <;> rw [hrec] at h <;>
        simp only [ScanResult.finished.injEq, reduceCtorEq] at h
      rw [← h.1]
      exact ih (index + 1) w1 w2 r2 hw1 hrec

/-- The wake time a finished scan reports is the `mergeWake`-fold (the
minimum) of the accumulator and all wake-time candidates recorded during
the scan, provided the clock is monotone and every pre-existing timestamp
(and accumulated value) is no later than the first possible fresh
timestamp `clock (2*index) + retry_busy_check_after`. -/
theorem scanSlots_finished_fold (cfg : LoadBalancerConfig) (lockFree : Nat → Bool)
    (probe : Nat → ProbeResult) (clock : Nat → Nat) (hmono : MonotoneClock clock) :
    ∀ (slots : List ClientSlot) (index : Nat) (acc : Option Nat),
      TimestampsLE slots (clock (2 * index) + cfg.retry_busy_check_after) →
      (∀ a, acc = some a → a ≤ clock (2 * index) + cfg.retry_busy_check_after) →
      ∀ wake slots2,
        scanSlots cfg lockFree probe clock index acc slots =
          ScanResult.finished wake slots2 →
        wake = List.foldl mergeWake acc
          (scanCandidates cfg lockFree probe clock index slots) := by
  intro slots
  induction slots with
  | nil =>
    intro index acc hb ha wake slots2 h
    simp only [scanSlots, ScanResult.finished.injEq] at h
    rw [← h.1]
    rfl
  | cons slot rest ih =>
    intro index acc hb ha wake slots2 h
    obtain ⟨nbc⟩ := slot
    have hstep : clock (2 * index) ≤ clock (2 * (index + 1)) := hmono _ _ (by omega)
    have hstep1 : clock (2 * index) ≤ clock (2 * index + 1) := hmono _ _ (by omega)
    have hbrest : TimestampsLE rest (clock (2 * (index + 1)) + cfg.retry_busy_check_after) := by
      intro s hs c hc
      exact le_trans (hb s (List.mem_cons_of_mem _ hs) c hc) (by omega)
    simp only [scanSlots] at h
    cases hla : lockFree index with
    | false =>
      rw [hla, processSlot_locked] at h
      simp only at h
      rcases hrec : scanSlots cfg lockFree probe clock (index + 1) acc rest with
        ⟨i2, s2, r2⟩ | ⟨w2, r2⟩ <;> rw [hrec] at h <;>
        simp only [ScanResult.finished.injEq, reduceCtorEq] at h
      rw [← h.1]
      rw [ih (index + 1) acc hbrest (fun a haa => le_trans (ha a haa) (by omega)) w2 r2 hrec]
      simp only [scanCandidates, hla]
      simp
    | true =>
      cases nbc with
      | some c =>
        have hcb : c ≤ clock (2 * index) + cfg.retry_busy_check_after :=
          hb { next_busy_check := some c } (List.mem_cons_self _ _) c rfl
        obtain ⟨x, hx1, hx2, hx3, hx4⟩ := mergeWake_spec acc c
        have hxb : x ≤ clock (2 * index) + cfg.retry_busy_check_after := by
          rcases hx4 with rfl | hacc
          · exact hcb
          · exact ha x hacc
        by_cases hc : clock (2 * index) < c
        · rw [hla, processSlot_window cfg _ _ _ _ _ hc] at h
          simp only at h
          rcases hrec : scanSlots cfg lockFree probe clock (index + 1)
              (mergeWake acc c) rest with ⟨i2, s2, r2⟩ | ⟨w2, r2⟩ <;> rw [hrec] at h <;>
            simp only [ScanResult.finished.injEq, reduceCtorEq] at h
          rw [← h.1]
          rw [ih (index + 1) (mergeWake acc c) hbrest (fun a haa => by
            rw [hx1] at haa
            injection haa with haa2
            omega) w2 r2 hrec]
          simp only [scanCandidates, hla, if_pos hc]
          simp [List.foldl_cons]
        · cases hpr : probe index with
          | notBusy =>
            rw [hla, hpr, processSlot_expired_notBusy cfg _ _ _ _ hc] at h
            simp at h
          | busy =>
            rw [hla, hpr, processSlot_expired_busy cfg _ _ _ _ _ hc (by simp)] at h
            simp only at h
            rcases hrec : scanSlots cfg lockFree probe clock (index + 1)
                (mergeWake acc c) rest with ⟨i2, s2, r2⟩ | ⟨w2, r2⟩ <;> rw [hrec] at h <;>
              simp only [ScanResult.finished.injEq, reduceCtorEq] at h
            rw [← h.1]
            rw [ih (index + 1) (mergeWake acc c) hbrest (fun a haa => by
              rw [hx1] at haa
              injection haa with haa2
              omega) w2 r2 hrec]
            simp only [scanCandidates, hla, if_neg hc, hpr, if_true, List.cons_append,
              List.nil_append, List.foldl_cons, List.foldl_nil]
            rw [hx1, mergeWake_absorb x _ (by omega)]
          | probeError =>
            rw [hla, hpr, processSlot_expired_busy cfg _ _ _ _ _ hc (by simp)] at h
            simp only at h
            rcases hrec : scanSlots cfg lockFree probe clock (index + 1)
                (mergeWake acc c) rest with ⟨i2, s2, r2⟩ | ⟨w2, r2⟩ <;> rw [hrec] at h <;>
              simp only [ScanResult.finished.injEq, reduceCtorEq] at h
            rw [← h.1]
            rw [ih (index + 1) (mergeWake acc c) hbrest (fun a haa => by
              rw [hx1] at haa
              injection haa with haa2
              omega) w2 r2 hrec]
            simp only [scanCandidates, hla, if_neg hc, hpr, if_true, List.cons_append,
              List.nil_append, List.foldl_cons, List.foldl_nil]
            rw [hx1, mergeWake_absorb x _ (by omega)]
      | none =>
        cases hpr : probe index with
        | notBusy =>
          rw [hla, hpr, processSlot_none_notBusy] at h
          simp at h
        | busy =>
          rw [hla, hpr, processSlot_none_busy cfg _ _ _ _ (by simp)] at h
          simp only at h
          have hacc2 : (if acc.isNone then
              some (clock (2 * index) + cfg.retry_busy_check_after) else acc) =
              mergeWake acc (clock (2 * index) + cfg.retry_busy_check_after) := by
            cases acc with
            | none => rfl
            | some a =>
              rw [if_neg (show ¬((some a : Option Nat).isNone = true) by simp)]
              exact (mergeWake_absorb a _ (ha a rfl)).symm
          rw [hacc2] at h
          rcases hrec : scanSlots cfg lockFree probe clock (index + 1)
              (mergeWake acc (clock (2 * index) + cfg.retry_busy_check_after)) rest with
            ⟨i2, s2, r2⟩ | ⟨w2, r2⟩ <;> rw [hrec] at h <;>
            simp only [ScanResult.finished.injEq, reduceCtorEq] at h
          rw [← h.1]
          obtain ⟨x, hx1, hx2, hx3, hx4⟩ :=
            mergeWake_spec acc (clock (2 * index) + cfg.retry_busy_check_after)
          have hxb : x ≤ clock (2 * index) + cfg.retry_busy_check_after := hx2
          rw [ih (index + 1) _ hbrest (fun a haa => by
            rw [hx1] at haa
            injection haa with haa2
            omega) w2 r2 hrec]
          simp only [scanCandidates, hla, hpr]
          simp [List.foldl_cons]
        | probeError =>
          rw [hla, hpr, processSlot_none_busy cfg _ _ _ _ (by simp)] at h
          simp only at h
          have hacc2 : (if acc.isNone then
              some (clock (2 * index) + cfg.retry_busy_check_after) else acc) =
              mergeWake acc (clock (2 * index) + cfg.retry_busy_check_after) := by
            cases acc with
            | none => rfl
            | some a =>
              rw [if_neg (show ¬((some a : Option Nat).isNone = true) by simp)]
              exact (mergeWake_absorb a _ (ha a rfl)).symm
          rw [hacc2] at h
          rcases hrec : scanSlots cfg lockFree probe clock (index + 1)
              (mergeWake acc (clock (2 * index) + cfg.retry_busy_check_after)) rest with
            ⟨i2, s2, r2⟩ | ⟨w2, r2⟩ <;> rw [hrec] at h <;>
            simp only [ScanResult.finished.injEq, reduceCtorEq] at h
          rw [← h.1]
          obtain ⟨x, hx1, hx2, hx3, hx4⟩ :=
            mergeWake_spec acc (clock (2 * index) + cfg.retry_busy_check_after)
          rw [ih (index + 1) _ hbrest (fun a haa => by
            rw [hx1] at haa
            injection haa with haa2
            omega) w2 r2 hrec]
          simp only [scanCandidates, hla, hpr]
          simp [List.foldl_cons]

/-- If some slot in range has a free lock, a finished scan carries a wake
time (so the scan reports `BusyExternally`, never `BusyInternally`). -/
theorem scanSlots_finished_lockFree_isSome (cfg : LoadBalancerConfig)
    (lockFree : Nat → Bool) (probe : Nat → ProbeResult) (clock : Nat → Nat) :
    ∀ (slots : List ClientSlot) (index : Nat) (acc wake : Option Nat)
      (slots2 : List ClientSlot),
      scanSlots cfg lockFree probe clock index acc slots =
        ScanResult.finished wake slots2 →
      ∀ j, index ≤ j → j < index + slots.length → lockFree j = true →
      wake.isSome = true := by
  intro slots
  induction slots with
  | nil =>
    intro index acc wake slots2 h j hj1 hj2 hj3
    simp only [List.length_nil] at hj2
    omega
  | cons slot rest ih =>
    intro index acc wake slots2 h j hj1 hj2 hj3
    simp only [scanSlots] at h
    rcases hr : processSlot cfg (lockFree index) (probe index) (clock (2 * index))
      (clock (2 * index + 1)) slot acc with ⟨o, s1, w1⟩
    rw [hr] at h
    cases o with
    | acquiredHere => simp at h
    | skippedLocked =>
      have hlocked : lockFree index = false := processSlot_skippedLocked_inv cfg
        (lockFree index) (probe index) (clock (2 * index)) (clock (2 * index + 1))
        slot acc (by rw [hr])
      simp only at h
      rcases hrec : scanSlots cfg lockFree probe clock (index + 1) w1 rest with
        ⟨i2, s2, r2⟩ | ⟨w2, r2⟩ <;> rw [hrec] at h <;>
        simp only [ScanResult.finished.injEq, reduceCtorEq] at h
      rw [← h.1]
      have hjne : index ≠ j := by
        intro heq
        rw [heq, hj3] at hlocked
        exact absurd hlocked (by simp)
      exact ih (index + 1) w1 w2 r2 hrec j (by omega)
        (by simp only [List.length_cons] at hj2; omega) hj3
    | skippedBusyWindow =>
      have hw1 : w1.isSome = true := by
        have := processSlot_busy_wake_isSome cfg (lockFree index) (probe index)
          (clock (2 * index)) (clock (2 * index + 1)) slot acc (by rw [hr]; simp)
        rw [hr] at this
        exact this
      simp only at h
      rcases hrec : scanSlots cfg lockFree probe clock (index + 1) w1 rest with
        ⟨i2, s2, r2⟩ | ⟨w2, r2⟩ <;> rw [hrec] at h <;>
        simp only [ScanResult.finished.injEq, reduceCtorEq] at h
      rw [← h.1]
      exact scanSlots_finished_isSome cfg lockFree probe clock rest (index + 1)
        w1 w2 r2 hw1 hrec
    | markedBusy =>
      have hw1 : w1.isSome = true := by
        have := processSlot_busy_wake_isSome cfg (lockFree index) (probe index)
          (clock (2 * index)) (clock (2 * index + 1)) slot acc (by rw [hr]; simp)
        rw [hr] at this
        exact this
      simp only at h
      rcases hrec : scanSlots cfg lockFree probe clock (index + 1) w1 rest with
        ⟨i2, s2, r2⟩ | ⟨w2, r2⟩ <;> rw [hrec] at h <;>
        simp only [ScanResult.finished.injEq, reduceCtorEq] at h
      rw [← h.1]
      exact scanSlots_finished_isSome cfg lockFree probe clock rest (index + 1)
        w1 w2 r2 hw1 hrec

/-- C9: whenever `try_acquire_client` returns `Acquired`, the returned
slot's `next_busy_check` is `None` — the timestamp either was absent or was
cleared right before the successful not-busy probe, so every slot handed to
the orchestrator is recorded as known-available. -/
theorem acquired_slot_known_available (cfg : LoadBalancerConfig) (lockFree : Nat → Bool)
    (probe : Nat → ProbeResult) (clock : Nat → Nat) (slots : List ClientSlot)
    (idx : Nat) (s : ClientSlot)
    (h : (OfficeConvertLoadBalancer.try_acquire_client cfg lockFree probe clock slots).1 =
      TryAcquireResult.Acquired idx s) :
    s.next_busy_check = none := by
  unfold OfficeConvertLoadBalancer.try_acquire_client at h
  rcases hscan : scanSlots cfg lockFree probe clock 0 none slots with _ | w <;>
    rw [hscan] at h
  · simp only [TryAcquireResult.Acquired.injEq] at h
    obtain ⟨h1, h2⟩ := h
    subst h2
    have := (scanSlots_acquired_core cfg lockFree probe clock slots 0 none _ _ _ hscan).2.2.1
    rw [this]
  · rcases w with _ | w' <;> simp at h

/-- Witness for C9: a one-slot pool with a free lock and a not-busy probe
acquires slot 0 with a cleared timestamp. -/
theorem acquired_slot_known_available_witness :
    (ClientSlot.mk none).next_busy_check = none := by
  exact acquired_slot_known_available LoadBalancerConfig.default (fun _ => true)
    (fun _ => ProbeResult.notBusy) (fun _ => 0) [{ next_busy_check := none }] 0
    (ClientSlot.mk none) rfl

/-- C6: a scan visits the slots in fixed order from index 0 and `Acquired`
returns the first slot (in that order) that is lock-free, outside any busy
window, and probes not busy: the winner's lock was free and its probe said
not busy, and every earlier slot was either locked (skipped without
waiting), probed busy or erroneously, or carried an unexpired busy-check
timestamp.  No rotation state enters: the scan is a function of the current
slots and oracles alone, always starting at index 0. -/
theorem scan_fixed_order_first_wins (cfg : LoadBalancerConfig) (lockFree : Nat → Bool)
    (probe : Nat → ProbeResult) (clock : Nat → Nat) (slots : List ClientSlot)
    (idx : Nat) (s : ClientSlot)
    (h : (OfficeConvertLoadBalancer.try_acquire_client cfg lockFree probe clock slots).1 =
      TryAcquireResult.Acquired idx s) :
    lockFree idx = true ∧ probe idx = ProbeResult.notBusy ∧
      s = { next_busy_check := none } ∧ idx < slots.length ∧
      ∀ j, j < idx →
        lockFree j = false ∨ probe j ≠ ProbeResult.notBusy ∨
          ∃ sj c, slots[j]? = some sj ∧ sj.next_busy_check = some c ∧
            clock (2 * j) < c := by
  unfold OfficeConvertLoadBalancer.try_acquire_client at h
  rcases hscan : scanSlots cfg lockFree probe clock 0 none slots with
    ⟨i2, s2, r2⟩ | ⟨w2, r2⟩ <;> rw [hscan] at h
  · simp only [TryAcquireResult.Acquired.injEq] at h
    obtain ⟨h1, h2⟩ := h
    obtain ⟨c1, c2, c3, c4, c5, c6⟩ :=
      scanSlots_acquired_core cfg lockFree probe clock slots 0 none i2 s2 r2 hscan
    refine ⟨h1 ▸ c1, h1 ▸ c2, h2 ▸ c3, by omega, ?_⟩
    intro j hj
    have := c6 j (by omega) (by omega)
    simpa using this
  · cases w2 <;> simp at h

/-- Witness for C6: with slot 0 inside its busy window, slot 1 locked, and
slot 2 free and not busy, the scan acquires slot 2. -/
theorem scan_fixed_order_first_wins_witness :
    (fun j : Nat => j != 1) 2 = true ∧
    (fun _ : Nat => ProbeResult.notBusy) 2 = ProbeResult.notBusy ∧
    ClientSlot.mk none = { next_busy_check := none } ∧
    2 < [ClientSlot.mk (some 10), ClientSlot.mk none, ClientSlot.mk none].length := by
  have h := scan_fixed_order_first_wins LoadBalancerConfig.default (fun j => j != 1)
    (fun _ => ProbeResult.notBusy) (fun _ => 5)
    [ClientSlot.mk (some 10), ClientSlot.mk none, ClientSlot.mk none] 2
    (ClientSlot.mk none) (by rfl)
  exact ⟨h.1, h.2.1, h.2.2.1, h.2.2.2.1⟩

/-- C5: when a finished scan recorded any wake-time candidate it reports
`BusyExternally` carrying the minimum of all candidates recorded during the
scan (under a monotone clock whose pre-existing slot timestamps do not
exceed the first possible fresh timestamp); the blocking `acquire_client`
wrapper then sleeps until exactly that instant whenever it has not already
passed, and loops again immediately when it has; and whenever at least one
slot's lock is free, a scan never reports `BusyInternally`. -/
theorem busy_externally_min_wake (cfg : LoadBalancerConfig) (lockFree : Nat → Bool)
    (probe : Nat → ProbeResult) (clock : Nat → Nat) (slots : List ClientSlot)
    (hmono : MonotoneClock clock)
    (hbound : TimestampsLE slots (clock 0 + cfg.retry_busy_check_after)) :
    (∀ w, (OfficeConvertLoadBalancer.try_acquire_client cfg lockFree probe clock slots).1 =
        TryAcquireResult.BusyExternally w →
      w ∈ scanCandidates cfg lockFree probe clock 0 slots ∧
      (∀ c ∈ scanCandidates cfg lockFree probe clock 0 slots, w ≤ c) ∧
      (∀ now, now ≤ w → acquireStep (TryAcquireResult.BusyExternally w) now =
        AcquireAction.sleepUntil w) ∧
      (∀ now, w < now → acquireStep (TryAcquireResult.BusyExternally w) now =
        AcquireAction.retryNow)) ∧
    (∀ j, j < slots.length → lockFree j = true →
      (OfficeConvertLoadBalancer.try_acquire_client cfg lockFree probe clock slots).1 ≠
        TryAcquireResult.BusyInternally) := by
  constructor
  · intro w hw
    unfold OfficeConvertLoadBalancer.try_acquire_client at hw
    rcases hscan : scanSlots cfg lockFree probe clock 0 none slots with
      ⟨i2, s2, r2⟩ | ⟨w2, r2⟩ <;> rw [hscan] at hw
    · simp at hw
    · cases w2 with
      | none => simp at hw
      | some w3 =>
        simp only [TryAcquireResult.BusyExternally.injEq] at hw
        have hfold := scanSlots_finished_fold cfg lockFree probe clock hmono slots 0 none
          (by simpa using hbound) (by simp) (some w3) r2 hscan
        obtain ⟨m1, m2, m3⟩ := foldl_mergeWake_min
          (scanCandidates cfg lockFree probe clock 0 slots) none w3 hfold.symm
        rcases m1 with hm | hm
        · refine ⟨hw ▸ hm, fun c hc => hw ▸ m2 c hc, ?_, ?_⟩
          · intro now hnow
            simp [acquireStep, show ¬ now > w by omega]
          · intro now hnow
            simp [acquireStep, show now > w from hnow]
        · exact absurd hm (by simp)
  · intro j hj hlf hcontra
    unfold OfficeConvertLoadBalancer.try_acquire_client at hcontra
    rcases hscan : scanSlots cfg lockFree probe clock 0 none slots with
      ⟨i2, s2, r2⟩ | ⟨w2, r2⟩ <;> rw [hscan] at hcontra
    · simp at hcontra
    · cases w2 with
      | some w3 => simp at hcontra
      | none =>
        have := scanSlots_finished_lockFree_isSome cfg lockFree probe clock slots 0
          none none r2 hscan j (by omega) (by omega) hlf
        simp at this

/-- Witness for C5: two unstamped slots, both probing busy under a constant
clock at 0 and `retry_busy_check_after = 5`: the scan reports
`BusyExternally 5`, `5` is a recorded candidate, the wrapper sleeps until 5
at time 3 and retries immediately at time 9, and the result is never
`BusyInternally`. -/
theorem busy_externally_min_wake_witness :
    5 ∈ scanCandidates LoadBalancerConfig.default (fun _ => true)
        (fun _ => ProbeResult.busy) (fun _ => 0) 0 [ClientSlot.mk none, ClientSlot.mk none] ∧
    acquireStep (TryAcquireResult.BusyExternally 5) 3 = AcquireAction.sleepUntil 5 ∧
    acquireStep (TryAcquireResult.BusyExternally 5) 9 = AcquireAction.retryNow ∧
    (OfficeConvertLoadBalancer.try_acquire_client LoadBalancerConfig.default (fun _ => true)
        (fun _ => ProbeResult.busy) (fun _ => 0)
        [ClientSlot.mk none, ClientSlot.mk none]).1 ≠ TryAcquireResult.BusyInternally := by
  have h := busy_externally_min_wake LoadBalancerConfig.default (fun _ => true)
    (fun _ => ProbeResult.busy) (fun _ => 0) [ClientSlot.mk none, ClientSlot.mk none]
    (fun i j hij => le_rfl)
    (by
      intro s hs c hc
      simp at hs
      rcases hs with rfl | rfl <;> simp at hc)
  have h1 := h.1 5 (by rfl)
  exact ⟨h1.1, h1.2.2.1 3 (by omega), h1.2.2.2 9 (by omega), h.2 0 (by simp) rfl⟩
